import Mathlib

/-!
Verification development for the email-blast mail-merge script
(src/email_blast.py).  The Python program is shallowly embedded below:

* Python strings that carry message content are modelled as lists of
  Unicode code points (`PyStr`), since the character-set negotiation
  logic inspects code points only.
* The per-row context dictionary `dict(zip(headers, row))` is modelled
  by `pyDict`, which reproduces insertion-ordered Python dict semantics
  (duplicate keys keep their first position, the value written last wins).
* The CSV header heuristic, the message composer `create_message`, the
  charset negotiation loop, `email.utils.formataddr` (empty-name path),
  the SMTP sending routine `send_email` (as the list of SMTP protocol
  operations a successful call performs), the error printer
  `handle_smtp_error`, and the main send loop are all translated
  directly from the source.
* Fallible steps (dict KeyError, the explicit content.encode call in
  the HTML branch) are modelled with `Except` and `Option`.
-/

/-- A Python 3 string: a finite sequence of Unicode code points.
Python strings may contain lone surrogate code points, so no
well-formedness beyond the code-point range is assumed. -/
abbrev PyStr := List Nat

/-- A Python dict from strings to strings, materialised as its
insertion-ordered entry list (keys pairwise distinct by construction
through `pyDict`). -/
abbrev PyDict := List (String × String)

/-- Surrogate code points (U+D800 to U+DFFF) cannot be encoded by any
of the three candidate codecs. -/
def isSurrogate (c : Nat) : Bool :=
  decide (0xD800 ≤ c) && decide (c ≤ 0xDFFF)

/-- A string with no surrogate code points.  Every string obtained by
strict UTF-8 decoding (template files, CSV text) satisfies this. -/
def noSurr (s : PyStr) : Bool :=
  s.all fun c => !isSurrogate c

/-- Whether `s.encode(cs)` succeeds in Python without a UnicodeError,
for the three charsets the program tries. -/
def pyEncodes (cs : String) (s : PyStr) : Bool :=
  if cs = "US-ASCII" then s.all fun c => decide (c < 0x80)
  else if cs = "ISO-8859-1" then s.all fun c => decide (c < 0x100)
  else if cs = "UTF-8" then noSurr s
  else false

/-- UTF-8 encoding of one code point (assumed non-surrogate). -/
def utf8Bytes (c : Nat) : List Nat :=
  if c < 0x80 then [c]
  else if c < 0x800 then [0xC0 + c / 0x40, 0x80 + c % 0x40]
  else if c < 0x10000 then
    [0xE0 + c / 0x1000, 0x80 + c / 0x40 % 0x40, 0x80 + c % 0x40]
  else
    [0xF0 + c / 0x40000, 0x80 + c / 0x1000 % 0x40, 0x80 + c / 0x40 % 0x40,
     0x80 + c % 0x40]

/-- Python `s.encode(cs)`: the byte string on success, `none` when the
codec raises a UnicodeError.  US-ASCII and ISO-8859-1 map code points
to identical byte values. -/
def pyEncode (cs : String) (s : PyStr) : Option (List Nat) :=
  if pyEncodes cs s then
    some (if cs = "UTF-8" then (s.map utf8Bytes).flatten else s)
  else none

/-- The candidate charsets, in the order the source tries them. -/
def charsetCandidates : List String := ["US-ASCII", "ISO-8859-1", "UTF-8"]

/-- The charset loop of create_message: `for charset in [...]` with
try/except/else-break.  The loop variable keeps the last attempted
charset when every attempt fails. -/
def charsetLoop (s : PyStr) : List String → String → String
  | [], last => last
  | cs :: rest, _ => if pyEncodes cs s then cs else charsetLoop s rest cs

/-- The charset create_message settles on for a rendered content
string (the initial accumulator is irrelevant: the candidate list is a
non-empty literal, so the loop variable is always assigned). -/
def chooseCharset (s : PyStr) : String :=
  charsetLoop s charsetCandidates ""

/-- Python `Char` lowering for ASCII letters, used by str.lower on the
extension strings that occur here. -/
def lowerChar (c : Char) : Char :=
  if 65 ≤ c.toNat ∧ c.toNat ≤ 90 then Char.ofNat (c.toNat + 32) else c

/-- `str.lower()` restricted to the ASCII range (file extensions). -/
def pyLower (s : String) : String :=
  (s.toList.map lowerChar).asString

/-- The source test `ext.lower() in [".html", ".htm"]`. -/
def isHtmlExt (ext : String) : Bool :=
  [".html", ".htm"].contains (pyLower ext)

/-- Payload of a MIME body part: a text payload (plain branch passes
the str) or a byte payload (HTML branch passes content.encode(charset)). -/
inductive MimePayload
  | text (s : PyStr)
  | bytes (b : List Nat)
deriving DecidableEq

/-- One body part of the alternative container: MIMEText(payload,
subtype, charset). -/
structure MimePart where
  subtype : String
  charset : String
  payload : MimePayload
deriving DecidableEq

/-- The composed MIME message: envelope headers plus the parts attached
to the inner multipart/alternative container. -/
structure MailMessage where
  subject : String
  fromAddr : String
  toAddr : String
  preamble : String
  altParts : List MimePart
deriving DecidableEq

/-- Characters that force the display name into double quotes
(specialsre in email.utils). -/
def isSpecialChar (c : Char) : Bool :=
  "()<>@,:;.\\\"[]".toList.contains c

/-- Characters escaped with a backslash in the display name
(escapesre in email.utils). -/
def isEscapeChar (c : Char) : Bool :=
  c.toNat = 92 || c.toNat = 34

/-- email.utils.formataddr for ASCII display names.  With an empty
name it returns the bare address; the program only ever calls it with
an empty name (the RFC 2047 branch for non-ASCII names is unreachable
here and not modelled). -/
def formataddr (name addr : String) : String :=
  if name = "" then addr
  else
    let escaped :=
      ((name.toList.map fun c =>
          if isEscapeChar c then [Char.ofNat 92, c] else [c]).flatten).asString
    let quotes := if name.toList.any isSpecialChar then "\"" else ""
    quotes ++ escaped ++ quotes ++ " <" ++ addr ++ ">"

/-- Lookup in the global TEMPLATES dict (base name to list of file
extensions), `none` modelling a KeyError. -/
def templatesGet (tmap : List (String × List String)) (k : String) :
    Option (List String) :=
  match tmap.find? fun p => p.1 == k with
  | some p => some p.2
  | none => none

/-- One iteration of the attachment loop: render one variant, negotiate
its charset, and build the MIMEText part.  Only the HTML branch calls
content.encode(charset) explicitly; its failure (UnicodeEncodeError)
propagates. -/
def mkPart (ext : String) (content : PyStr) : Except String MimePart :=
  if isHtmlExt ext then
    match pyEncode (chooseCharset content) content with
    | none => .error "UnicodeEncodeError"
    | some bs =>
      .ok { subtype := "html", charset := chooseCharset content, payload := .bytes bs }
  else
    .ok { subtype := "plain", charset := chooseCharset content, payload := .text content }

/-- The `for ext in TEMPLATES[template_key]` loop of create_message:
renders each variant in order and attaches the resulting parts. -/
def attachVariants (render : String → PyDict → PyStr) (tkey : String)
    (data : PyDict) : List String → Except String (List MimePart)
  | [] => .ok []
  | ext :: rest =>
    match mkPart ext (render (tkey ++ ext) data) with
    | .error e => .error e
    | .ok p =>
      match attachVariants render tkey data rest with
      | .error e => .error e
      | .ok ps => .ok (p :: ps)

/-- create_message from the source: sets Subject/From/To and the
preamble, then attaches one rendered part per extension variant of the
chosen template key.  `render f d` stands for
jinja_env.get_template(f).render(data=d, **d). -/
def create_message (tmap : List (String × List String))
    (render : String → PyDict → PyStr)
    (mailTo mailFrom subject tkey : String) (data : PyDict) :
    Except String MailMessage :=
  match templatesGet tmap tkey with
  | none => .error "KeyError"
  | some variants =>
    match attachVariants render tkey data variants with
    | .error e => .error e
    | .ok parts =>
      .ok { subject := subject
            fromAddr := mailFrom
            toAddr := formataddr "" mailTo
            preamble := "This is a multi-part message in MIME format"
            altParts := parts }

/-- The process-wide SMTP_SETTINGS dict. -/
structure SmtpSettings where
  smtp_host : String
  smtp_user : String
  smtp_passwd : String
  smtp_security : String
  mail_from : String

/-- One SMTP protocol operation performed by send_email. -/
inductive SmtpOp
  | connect (host : String)
  | starttls
  | login (user passwd : String)
  | sendmail (fromAddr : String) (toAddrs : List String) (msg : MailMessage)

/-- The sequence of SMTP operations a successful call of send_email
performs: it always opens a fresh connection, then STARTTLS when the
security mode is "tls", then LOGIN when both user and password are
non-empty (Python truthiness), then submits the one message. -/
def send_email (st : SmtpSettings) (mailTo mailFrom : String)
    (msg : MailMessage) : List SmtpOp :=
  [.connect st.smtp_host]
  ++ (if st.smtp_security = "tls" then [.starttls] else [])
  ++ (if st.smtp_user ≠ "" ∧ st.smtp_passwd ≠ "" then
        [.login st.smtp_user st.smtp_passwd] else [])
  ++ [.sendmail mailFrom [mailTo] msg]

/-- An smtplib exception value as handle_smtp_error observes it: its
type name and which of the attributes the handler probes are present. -/
structure PySmtpError where
  tyName : String
  recipients : Option (List (String × Nat × String))
  smtp_error : Option String
  message : Option String

/-- The attributes a Python 3 dict actually has (iteritems was removed
in Python 3; it existed only on Python 2 dicts). -/
def py3DictAttrs : List String :=
  ["keys", "values", "items", "get", "pop", "popitem", "setdefault",
   "update", "clear", "copy", "fromkeys"]

/-- Outcome of handle_smtp_error: either it prints its diagnostic lines
and exits with the given code, or an exception escapes from the handler
itself. -/
inductive HandleOutcome
  | exited (printed : List String) (code : Nat)
  | raised (exc : String)
deriving DecidableEq

/-- handle_smtp_error from the source.  For an SMTPRecipientsRefused
error it iterates error.recipients.iteritems() and prints value[1] for
each entry; on Python 3 the attribute lookup of iteritems on a dict
raises AttributeError before anything is printed.  Otherwise it prints
the smtp_error attribute, else the message attribute, else the
unknown-error line, and exits 1. -/
def handle_smtp_error (e : PySmtpError) : HandleOutcome :=
  if e.tyName = "SMTPRecipientsRefused" then
    match e.recipients with
    | some recips =>
      if py3DictAttrs.contains "iteritems" then
        .exited (recips.map fun kv => kv.2.2) 1
      else
        .raised "AttributeError"
    | none => .exited [] 1
  else
    match e.smtp_error with
    | some s => .exited [s] 1
    | none =>
      match e.message with
      | some s => .exited [s] 1
      | none => .exited ["Unknown Error (type: " ++ e.tyName ++ ")"] 1

/-- Python `d[k] = v` on the entry-list representation: overwrite in
place when the key exists, append otherwise. -/
def dictInsert (d : PyDict) (k v : String) : PyDict :=
  if d.any fun p => p.1 == k then
    d.map fun p => if p.1 == k then (k, v) else p
  else d ++ [(k, v)]

/-- Python `dict(pairs)`: insert the pairs left to right. -/
def pyDict (ps : List (String × String)) : PyDict :=
  ps.foldl (fun d p => dictInsert d p.1 p.2) []

/-- Python `d[k]`, `none` modelling a KeyError. -/
def dictLookup (d : PyDict) (k : String) : Option String :=
  match d.find? fun p => p.1 == k with
  | some p => some p.2
  | none => none

/-- Python truthiness of the `headers` variable in the CSV loop
(initially None, possibly a list). -/
def pyFalsyOpt : Option (List String) → Bool
  | none => true
  | some h => h.isEmpty

/-- The CSV reading loop: before a header is found, a row becomes the
header exactly when it has at least 3 fields (rows before that are
discarded); afterwards every row is appended to the data rows. -/
def scanRows : List (List String) → Option (List String) →
    List (List String) → Option (List String) × List (List String)
  | [], hs, acc => (hs, acc)
  | r :: rs, hs, acc =>
    if pyFalsyOpt hs then
      if 3 ≤ r.length then scanRows rs (some r) acc
      else scanRows rs hs acc
    else scanRows rs hs (acc ++ [r])

/-- CSV loading at the row level (NUL stripping and field splitting
are done by the csv module before this loop and are not modelled):
returns the detected header row and the data rows. -/
def loadCSV (rows : List (List String)) :
    Option (List String) × List (List String) :=
  scanRows rows none []

/-- Lines 215-217 of the source: the From value is
"name <addr>" when a sender name was given (truthy), else the bare
address. -/
def pyMailFrom (name addr : String) : String :=
  if name = "" then addr else name ++ " <" ++ addr ++ ">"

/-- Everything the send loop reads: the SMTP settings, the template
map and renderer, the email validator (`none` models
EmailNotValidError, `some` the normalized address), the dry-run
option, and the interactive answers. -/
structure RunConfig where
  settings : SmtpSettings
  templates : List (String × List String)
  render : String → PyDict → PyStr
  validate : String → Option String
  dryRun : Option String
  emailColumn : String
  mailFromName : String
  mailFromAddr : String
  subject : String
  templateKey : String

/-- What one iteration of the send loop does with one data row. -/
inductive RowEvent
  | aborted (err : String)
  | skipped (origAddr : String)
  | sent (mailTo : String) (msg : MailMessage)

/-- One iteration of the send loop: build the row context, read the
email column (KeyError aborts the run), validate the address (failure
skips the row), apply the dry-run override (Python truthiness), then
compose the message. -/
def processRow (cfg : RunConfig) (headers row : List String) : RowEvent :=
  let data := pyDict (headers.zip row)
  match dictLookup data cfg.emailColumn with
  | none => .aborted "KeyError"
  | some addr =>
    match cfg.validate addr with
    | none => .skipped addr
    | some normalized =>
      let mailTo :=
        match cfg.dryRun with
        | some a => if a = "" then normalized else a
        | none => normalized
      match create_message cfg.templates cfg.render mailTo
          (pyMailFrom cfg.mailFromName cfg.mailFromAddr) cfg.subject
          cfg.templateKey data with
      | .error e => .aborted e
      | .ok msg => .sent mailTo msg

/-- The send loop over all data rows.  A skipped row continues with
the next row; an uncaught exception (KeyError, UnicodeEncodeError)
aborts the remainder of the run. -/
def runEvents (cfg : RunConfig) (headers : List String) :
    List (List String) → List RowEvent
  | [] => []
  | r :: rs =>
    match processRow cfg headers r with
    | .aborted e => [.aborted e]
    | .skipped a => .skipped a :: runEvents cfg headers rs
    | .sent t m => .sent t m :: runEvents cfg headers rs

/-- The SMTP operations of a run: each sent row invokes
send_email(mail_to, mail_from_addr, msg) with the bare from-address. -/
def smtpTrace (st : SmtpSettings) (mailFromAddr : String) :
    List RowEvent → List SmtpOp
  | [] => []
  | .sent t m :: es => send_email st t mailFromAddr m ++ smtpTrace st mailFromAddr es
  | .aborted _ :: es => smtpTrace st mailFromAddr es
  | .skipped _ :: es => smtpTrace st mailFromAddr es

/-- The full SMTP trace of a run of the main loop. -/
def runTrace (cfg : RunConfig) (headers : List String)
    (rows : List (List String)) : List SmtpOp :=
  smtpTrace cfg.settings cfg.mailFromAddr (runEvents cfg headers rows)

/-- Number of connection-opening operations in a trace. -/
def countConnects (ops : List SmtpOp) : Nat :=
  ops.countP fun op => match op with | .connect _ => true | _ => false

/-- Number of rows actually sent. -/
def countSent (evs : List RowEvent) : Nat :=
  evs.countP fun e => match e with | .sent _ _ => true | _ => false

/-- Recipient addresses of the sent messages, in send order. -/
def sentTos (evs : List RowEvent) : List String :=
  evs.filterMap fun e => match e with | .sent t _ => some t | _ => none

/-- The composed messages that were sent, in send order. -/
def sentMsgs (evs : List RowEvent) : List MailMessage :=
  evs.filterMap fun e => match e with | .sent _ m => some m | _ => none

/-- A data row whose email column is present and passes validation. -/
def rowAddrOk (cfg : RunConfig) (headers row : List String) : Bool :=
  match dictLookup (pyDict (headers.zip row)) cfg.emailColumn with
  | some a => (cfg.validate a).isSome
  | none => false

/-- Shared concrete SMTP settings for the executable scenarios. -/
def testSettings : SmtpSettings :=
  { smtp_host := "smtp.example.net"
    smtp_user := "mailer"
    smtp_passwd := "hunter2"
    smtp_security := "tls"
    mail_from := "noreply@hakaru.org" }

/-- Shared concrete run configuration for the executable scenarios:
one template key with a plain-text variant, an always-accepting
validator, no dry run. -/
def baseCfg : RunConfig :=
  { settings := testSettings
    templates := [("welcome", [".txt"])]
    render := fun _ _ => [72, 105]
    validate := fun s => some s
    dryRun := none
    emailColumn := "email"
    mailFromName := ""
    mailFromAddr := "noreply@hakaru.org"
    subject := "Hello"
    templateKey := "welcome" }

/-- Concrete header row for the executable scenarios. -/
def testHeaders : List String := ["name", "email", "plan"]

/-- Concrete data rows for the executable scenarios. -/
def testRows : List (List String) :=
  [["Ada", "ada@example.com", "pro"], ["Bob", "bob@example.com", "basic"]]

/-- Concrete SMTPRecipientsRefused error value: one refused recipient
with the server reply (550, "User unknown"). -/
def refusedErr : PySmtpError :=
  { tyName := "SMTPRecipientsRefused"
    recipients := some [("bob@example.com", 550, "User unknown")]
    smtp_error := none
    message := none }

/-- Configuration whose validator rejects every address. -/
def cfgInvalid : RunConfig := { baseCfg with validate := fun _ => none }

/-- Configuration with the dry-run option set. -/
def cfgDry : RunConfig := { baseCfg with dryRun := some "test@example.com" }

/-- Template map with a plain-text and an upper-case HTML variant. -/
def tmapTwo : List (String × List String) := [("welcome", [".txt", ".HTML"])]

/-- The message create_message composes from tmapTwo under the
constant renderer of baseCfg. -/
def msgTwo : MailMessage :=
  { subject := "Hello"
    fromAddr := "noreply@hakaru.org"
    toAddr := "ada@example.com"
    preamble := "This is a multi-part message in MIME format"
    altParts :=
      [{ subtype := "plain", charset := "US-ASCII", payload := .text [72, 105] },
       { subtype := "html", charset := "US-ASCII", payload := .bytes [72, 105] }] }

/-- The message create_message composes for the display-name scenario. -/
def msgNamed : MailMessage :=
  { subject := "Hello"
    fromAddr := "Alice Smith <alice@example.com>"
    toAddr := "bob@example.com"
    preamble := "This is a multi-part message in MIME format"
    altParts :=
      [{ subtype := "plain", charset := "US-ASCII", payload := .text [72, 105] }] }

/-! Helper lemmas about the charset negotiation. -/

theorem noSurr_utf8 {s : PyStr} (h : noSurr s = true) :
    pyEncodes "UTF-8" s = true := by
  simp only [pyEncodes]
  simpa using h

theorem chooseCharset_cases (s : PyStr) :
    chooseCharset s =
      if pyEncodes "US-ASCII" s then "US-ASCII"
      else if pyEncodes "ISO-8859-1" s then "ISO-8859-1"
      else "UTF-8" := by
  simp only [chooseCharset, charsetCandidates, charsetLoop, ite_self]

theorem chooseCharset_mem (s : PyStr) : chooseCharset s ∈ charsetCandidates := by
  rw [chooseCharset_cases]
  split_ifs <;> simp [charsetCandidates]

theorem chooseCharset_encodes {s : PyStr} (h : pyEncodes "UTF-8" s = true) :
    pyEncodes (chooseCharset s) s = true := by
  rw [chooseCharset_cases]
  split_ifs with h1 h2
  · exact h1
  · exact h2
  · exact h

theorem pyEncode_isSome {cs : String} {s : PyStr} (h : pyEncodes cs s = true) :
    (pyEncode cs s).isSome = true := by
  simp [pyEncode, h]

theorem mkPart_charset {ext : String} {c : PyStr} {p : MimePart}
    (h : mkPart ext c = .ok p) : p.charset = chooseCharset c := by
  simp only [mkPart] at h
  split at h
  · split at h
    · exact absurd h (by simp)
    · cases h; rfl
  · cases h; rfl

theorem mkPart_subtype {ext : String} {c : PyStr} {p : MimePart}
    (h : mkPart ext c = .ok p) :
    p.subtype = if isHtmlExt ext then "html" else "plain" := by
  simp only [mkPart] at h
  split at h
  · split at h
    · exact absurd h (by simp)
    · cases h; simp_all
  · cases h; simp_all

theorem mkPart_total {ext : String} {c : PyStr} (h : noSurr c = true) :
    ∃ p, mkPart ext c = .ok p := by
  simp only [mkPart]
  split
  · have henc := pyEncode_isSome (chooseCharset_encodes (noSurr_utf8 h))
    cases he : pyEncode (chooseCharset c) c with
    | none => rw [he] at henc; simp at henc
    | some bs => exact ⟨_, rfl⟩
  · exact ⟨_, rfl⟩

theorem attachVariants_total (render : String → PyDict → PyStr) (tkey : String)
    (data : PyDict) :
    ∀ vs : List String,
      (∀ ext ∈ vs, noSurr (render (tkey ++ ext) data) = true) →
      ∃ ps, attachVariants render tkey data vs = .ok ps
  | [], _ => ⟨[], rfl⟩
  | ext :: rest, h => by
    obtain ⟨p, hp⟩ :=
      @mkPart_total ext (render (tkey ++ ext) data) (h ext (by simp))
    obtain ⟨ps, hps⟩ :=
      attachVariants_total render tkey data rest fun e he => h e (by simp [he])
    exact ⟨p :: ps, by simp only [attachVariants, hp, hps]⟩

theorem attachVariants_subtypes (render : String → PyDict → PyStr) (tkey : String)
    (data : PyDict) :
    ∀ (vs : List String) (ps : List MimePart),
      attachVariants render tkey data vs = .ok ps →
      ps.map MimePart.subtype =
        vs.map fun ext => if isHtmlExt ext then "html" else "plain" := by
  intro vs
  induction vs with
  | nil =>
    intro ps h
    simp only [attachVariants] at h
    cases h
    simp
  | cons ext rest ih =>
    intro ps h
    simp only [attachVariants] at h
    split at h
    · exact absurd h (by simp)
    · rename_i p hm
      split at h
      · exact absurd h (by simp)
      · rename_i ps2 ha
        cases h
        simp [mkPart_subtype hm, ih _ ha]

theorem attachVariants_charsets (render : String → PyDict → PyStr) (tkey : String)
    (data : PyDict) :
    ∀ (vs : List String) (ps : List MimePart),
      attachVariants render tkey data vs = .ok ps →
      ∀ p ∈ ps, p.charset ∈ charsetCandidates := by
  intro vs
  induction vs with
  | nil =>
    intro ps h
    simp only [attachVariants] at h
    cases h
    simp
  | cons ext rest ih =>
    intro ps h
    simp only [attachVariants] at h
    split at h
    · exact absurd h (by simp)
    · rename_i p hm
      split at h
      · exact absurd h (by simp)
      · rename_i ps2 ha
        cases h
        intro q hq
        rcases List.mem_cons.mp hq with hq | hq
        · rw [hq, mkPart_charset hm]
          exact chooseCharset_mem _
        · exact ih _ ha q hq

theorem formataddr_empty (a : String) : formataddr "" a = a := rfl

theorem create_message_to {tmap : List (String × List String)}
    {render : String → PyDict → PyStr} {mailTo mailFrom subject tkey : String}
    {data : PyDict} {m : MailMessage}
    (h : create_message tmap render mailTo mailFrom subject tkey data = .ok m) :
    m.toAddr = formataddr "" mailTo := by
  simp only [create_message] at h
  split at h
  · exact absurd h (by simp)
  · split at h
    · exact absurd h (by simp)
    · cases h; rfl

theorem create_message_total {tmap : List (String × List String)}
    {render : String → PyDict → PyStr} {mailTo mailFrom subject tkey : String}
    {data : PyDict} {variants : List String}
    (htm : templatesGet tmap tkey = some variants)
    (hns : ∀ ext ∈ variants, noSurr (render (tkey ++ ext) data) = true) :
    ∃ m, create_message tmap render mailTo mailFrom subject tkey data = .ok m ∧
      m.toAddr = formataddr "" mailTo ∧
      ∀ p ∈ m.altParts, p.charset ∈ charsetCandidates := by
  obtain ⟨ps, hps⟩ := attachVariants_total render tkey data variants hns
  refine ⟨{ subject := subject, fromAddr := mailFrom, toAddr := formataddr "" mailTo,
            preamble := "This is a multi-part message in MIME format",
            altParts := ps }, ?_, rfl, ?_⟩
  · simp only [create_message, htm, hps]
  · exact attachVariants_charsets render tkey data variants ps hps

/-! Helper lemmas about the SMTP trace. -/

theorem countConnects_append (a b : List SmtpOp) :
    countConnects (a ++ b) = countConnects a + countConnects b :=
  List.countP_append _ a b

theorem countConnects_send_email (st : SmtpSettings) (t f : String)
    (m : MailMessage) : countConnects (send_email st t f m) = 1 := by
  simp only [send_email, countConnects]
  split_ifs <;> simp

theorem countConnects_smtpTrace (st : SmtpSettings) (f : String) :
    ∀ evs : List RowEvent, countConnects (smtpTrace st f evs) = countSent evs := by
  intro evs
  induction evs with
  | nil => rfl
  | cons e es ih =>
    cases e with
    | sent t m =>
      simp only [smtpTrace, countConnects_append, countConnects_send_email, ih,
        countSent, List.countP_cons]
      simp
      omega
    | aborted err =>
      simp only [smtpTrace, ih, countSent, List.countP_cons]
      simp
    | skipped a =>
      simp only [smtpTrace, ih, countSent, List.countP_cons]
      simp

theorem sentTos_cons_sent (t : String) (m : MailMessage) (evs : List RowEvent) :
    sentTos (.sent t m :: evs) = t :: sentTos evs := rfl

theorem sentMsgs_cons_sent (t : String) (m : MailMessage) (evs : List RowEvent) :
    sentMsgs (.sent t m :: evs) = m :: sentMsgs evs := rfl

/-! Helper lemmas about the CSV header scan. -/

theorem scanRows_after : ∀ (post acc : List (List String)) (h : List String),
    h.isEmpty = false → scanRows post (some h) acc = (some h, acc ++ post)
  | [], acc, h, _ => by simp [scanRows]
  | r :: rs, acc, h, hh => by
    simp only [scanRows, pyFalsyOpt, hh]
    rw [scanRows_after rs (acc ++ [r]) h hh]
    simp

theorem length_ge3_not_empty {h : List String} (hh : 3 ≤ h.length) :
    h.isEmpty = false := by
  cases h with
  | nil => simp at hh
  | cons a l => rfl

theorem scanRows_skip_short {r : List String} (rest acc : List (List String))
    (hr : r.length < 3) :
    scanRows (r :: rest) none acc = scanRows rest none acc := by
  have hnr : ¬ 3 ≤ r.length := by omega
  simp [scanRows, pyFalsyOpt, hnr]

theorem scanRows_found {hdr : List String} (rest acc : List (List String))
    (hh : 3 ≤ hdr.length) :
    scanRows (hdr :: rest) none acc = scanRows rest (some hdr) acc := by
  simp [scanRows, pyFalsyOpt, hh]

/-! Helper lemmas about Python dict construction. -/

theorem dictInsert_of_not_mem (d : PyDict) (k v : String)
    (h : k ∉ d.map Prod.fst) : dictInsert d k v = d ++ [(k, v)] := by
  unfold dictInsert
  rw [if_neg]
  intro hc
  rw [List.any_eq_true] at hc
  obtain ⟨p, hp, hpk⟩ := hc
  rw [beq_iff_eq] at hpk
  exact h (hpk ▸ List.mem_map_of_mem Prod.fst hp)

theorem pyDict_nodup_aux : ∀ (ps acc : PyDict),
    ((acc ++ ps).map Prod.fst).Nodup →
    ps.foldl (fun d p => dictInsert d p.1 p.2) acc = acc ++ ps
  | [], acc, _ => by simp
  | p :: ps, acc, h => by
    have hk : p.1 ∉ acc.map Prod.fst := by
      intro hc
      have hd := List.disjoint_of_nodup_append
        (by simpa [List.map_append] using h)
      exact hd hc (by simp)
    rw [List.foldl_cons, dictInsert_of_not_mem acc p.1 p.2 hk]
    rw [List.append_cons] at h
    have hrec := pyDict_nodup_aux ps (acc ++ [(p.1, p.2)]) (by simpa using h)
    rw [hrec]
    simp

theorem pyDict_of_nodup (ps : PyDict) (h : (ps.map Prod.fst).Nodup) :
    pyDict ps = ps := by
  have := pyDict_nodup_aux ps [] (by simpa using h)
  simpa [pyDict] using this

theorem map_fst_zip_take : ∀ l1 l2 : List String,
    (l1.zip l2).map Prod.fst = l1.take l2.length
  | [], _ => by simp
  | _ :: _, [] => by simp
  | a :: l1, b :: l2 => by simp [map_fst_zip_take l1 l2]

theorem zip_length_min : ∀ l1 l2 : List String,
    (l1.zip l2).length = min l1.length l2.length
  | [], _ => by simp
  | _ :: _, [] => by simp
  | a :: l1, b :: l2 => by
    simp only [List.zip_cons_cons, List.length_cons, zip_length_min l1 l2]
    omega

/-! Claim theorems. -/

/-- Claim C1, counterexample: the run does NOT maintain a single SMTP
session.  In a concrete successful run over two valid data rows the
SMTP trace contains two connect operations, so the claimed invariant
(at most one connection opened for the whole run) is false. -/
theorem smtp_single_session_counterexample :
    countConnects (runTrace baseCfg testHeaders testRows) = 2 ∧
    ¬ countConnects (runTrace baseCfg testHeaders testRows) ≤ 1 := by
  have h : countConnects (runTrace baseCfg testHeaders testRows) = 2 := by decide
  exact ⟨h, by rw [h]; decide⟩

/-- Claim C1, amended: send_email opens a fresh SMTP connection for
every message instead of reusing one session: in every run the number
of connect operations in the SMTP trace equals the number of messages
sent. -/
theorem smtp_connects_eq_sends (cfg : RunConfig) (headers : List String)
    (rows : List (List String)) :
    countConnects (runTrace cfg headers rows) =
      countSent (runEvents cfg headers rows) :=
  countConnects_smtpTrace cfg.settings cfg.mailFromAddr
    (runEvents cfg headers rows)

/-- Claim C2, code bug: for an SMTPRecipientsRefused error carrying a
refused recipient, handle_smtp_error calls the Python 2 method
dict.iteritems on the recipients dict, which no longer exists on
Python 3, so the handler raises AttributeError instead of printing the
per-recipient refusal detail and exiting 1 as the claim (and the
handler itself) intends. -/
theorem handle_smtp_error_iteritems_bug :
    handle_smtp_error refusedErr = .raised "AttributeError" ∧
    handle_smtp_error refusedErr ≠ .exited ["User unknown"] 1 := by
  decide

/-- Claim C3: for every CSV row sequence, the first row with at least
3 fields becomes the header; every earlier row (necessarily with fewer
than 3 fields) is discarded, and every later row becomes a data row,
in order. -/
theorem csv_header_first_row_ge3 (pre post : List (List String))
    (hdr : List String) (hpre : ∀ r ∈ pre, r.length < 3)
    (hhdr : 3 ≤ hdr.length) :
    loadCSV (pre ++ hdr :: post) = (some hdr, post) := by
  induction pre with
  | nil =>
    calc loadCSV ([] ++ hdr :: post)
        = scanRows (hdr :: post) none [] := by simp [loadCSV]
      _ = scanRows post (some hdr) [] := scanRows_found post [] hhdr
      _ = (some hdr, post) := by
          simpa using scanRows_after post [] hdr (length_ge3_not_empty hhdr)
  | cons r pre ih =>
    have hr : r.length < 3 := hpre r (by simp)
    calc loadCSV ((r :: pre) ++ hdr :: post)
        = scanRows (r :: (pre ++ hdr :: post)) none [] := by simp [loadCSV]
      _ = scanRows (pre ++ hdr :: post) none [] := scanRows_skip_short _ _ hr
      _ = (some hdr, post) := ih fun q hq => hpre q (List.mem_cons_of_mem r hq)

/-- Witness for C3 at a concrete CSV: two short rows are discarded,
the first 3-field row is the header, the remaining row is data. -/
theorem csv_header_first_row_ge3_witness :
    loadCSV [["a"], ["b", "c"], ["h1", "h2", "h3"], ["x", "y", "z"]] =
      (some ["h1", "h2", "h3"], [["x", "y", "z"]]) :=
  csv_header_first_row_ge3 [["a"], ["b", "c"]] [["x", "y", "z"]]
    ["h1", "h2", "h3"] (by decide) (by decide)

/-- Claim C4: a data row whose address fails validation is skipped:
the loop records the skip (the logged warning), composes no message for
it, contributes nothing to the SMTP trace, and processing continues
with the remaining rows. -/
theorem invalid_email_row_skipped (cfg : RunConfig) (headers row : List String)
    (rs : List (List String)) (addr : String)
    (hlk : dictLookup (pyDict (headers.zip row)) cfg.emailColumn = some addr)
    (hbad : cfg.validate addr = none) :
    processRow cfg headers row = .skipped addr ∧
    runEvents cfg headers (row :: rs) =
      .skipped addr :: runEvents cfg headers rs ∧
    runTrace cfg headers (row :: rs) = runTrace cfg headers rs := by
  have hp : processRow cfg headers row = .skipped addr := by
    simp only [processRow, hlk, hbad]
  refine ⟨hp, ?_, ?_⟩
  · simp only [runEvents, hp]
  · simp only [runTrace, runEvents, hp, smtpTrace]

/-- Witness for C4: with a validator that rejects every address, the
first test row is skipped and the run goes on with the second row. -/
theorem invalid_email_row_skipped_witness :
    processRow cfgInvalid testHeaders ["Ada", "ada@example.com", "pro"] =
      .skipped "ada@example.com" ∧
    runEvents cfgInvalid testHeaders testRows =
      .skipped "ada@example.com" ::
        runEvents cfgInvalid testHeaders [["Bob", "bob@example.com", "basic"]] ∧
    runTrace cfgInvalid testHeaders testRows =
      runTrace cfgInvalid testHeaders [["Bob", "bob@example.com", "basic"]] :=
  invalid_email_row_skipped cfgInvalid testHeaders
    ["Ada", "ada@example.com", "pro"] [["Bob", "bob@example.com", "basic"]]
    "ada@example.com" (by decide) rfl

/-- Claim C10, counterexample: with duplicate header names the row
context does NOT contain min(header count, field count) entries even
when the field count differs from the header count: headers a,a,b with
2 fields give a context of 1 entry, not min 3 2 = 2. -/
theorem row_context_counterexample :
    ¬ ((["a", "a", "b"] : List String).length ≠
          (["x", "y"] : List String).length →
        (pyDict ((["a", "a", "b"] : List String).zip ["x", "y"])).length =
          min (["a", "a", "b"] : List String).length
            (["x", "y"] : List String).length) := by
  decide

/-- Claim C10, amended: when the header names are pairwise distinct,
the row context dict(zip(headers, row)) has exactly
min(header count, field count) entries, its keys are the first
min-many headers in order (surplus row fields are dropped and headers
beyond the row length are absent), and the row is neither rejected nor
padded.  With duplicate headers the entry count can be smaller because
the last value for a repeated key wins. -/
theorem row_context_min_entries (headers row : List String)
    (hnd : headers.Nodup) :
    (pyDict (headers.zip row)).map Prod.fst = headers.take row.length ∧
    (pyDict (headers.zip row)).length = min headers.length row.length := by
  have hkeys := map_fst_zip_take headers row
  have hnd2 : ((headers.zip row).map Prod.fst).Nodup := by
    rw [hkeys]
    exact hnd.sublist (List.take_sublist _ _)
  have heq := pyDict_of_nodup _ hnd2
  refine ⟨?_, ?_⟩
  · rw [heq, hkeys]
  · rw [heq, zip_length_min]

/-- Witness for the amended C10: distinct headers a,b,c with a 2-field
row give context keys a,b and exactly 2 entries. -/
theorem row_context_min_entries_witness :
    (pyDict ((["a", "b", "c"] : List String).zip ["x", "y"])).map Prod.fst =
      ["a", "b"] ∧
    (pyDict ((["a", "b", "c"] : List String).zip ["x", "y"])).length = 2 :=
  row_context_min_entries ["a", "b", "c"] ["x", "y"] (by decide)

theorem chooseCharset_eq_find {s : PyStr} {cs : String}
    (h : charsetCandidates.find? (fun c => pyEncodes c s) = some cs) :
    chooseCharset s = cs := by
  rw [chooseCharset_cases]
  rcases h1 : pyEncodes "US-ASCII" s with _ | _ <;>
    rcases h2 : pyEncodes "ISO-8859-1" s with _ | _ <;>
      rcases h3 : pyEncodes "UTF-8" s with _ | _ <;>
        simp_all [charsetCandidates, List.find?]

/-- Claim C5: when create_message succeeds for a template key whose
variant list is `variants`, the alternative container holds exactly one
body part per variant, in variant order, with subtype html for the
.htm/.html extensions (case-insensitively) and plain for all others. -/
theorem create_message_variant_parts (tmap : List (String × List String))
    (render : String → PyDict → PyStr) (mailTo mailFrom subject tkey : String)
    (data : PyDict) (variants : List String) (m : MailMessage)
    (htm : templatesGet tmap tkey = some variants)
    (hok : create_message tmap render mailTo mailFrom subject tkey data = .ok m) :
    m.altParts.length = variants.length ∧
    m.altParts.map MimePart.subtype =
      variants.map fun ext => if isHtmlExt ext then "html" else "plain" := by
  simp only [create_message, htm] at hok
  cases ha : attachVariants render tkey data variants with
  | error e => rw [ha] at hok; exact absurd hok (by simp)
  | ok ps =>
    rw [ha] at hok
    cases hok
    have hsub := attachVariants_subtypes render tkey data variants ps ha
    refine ⟨?_, hsub⟩
    have := congrArg List.length hsub
    simpa using this

/-- Witness for C5: the key welcome with variants .txt and .HTML
composes exactly two parts, a plain one then an html one. -/
theorem create_message_variant_parts_witness :
    msgTwo.altParts.length = 2 ∧
    msgTwo.altParts.map MimePart.subtype =
      [".txt", ".HTML"].map fun ext => if isHtmlExt ext then "html" else "plain" :=
  create_message_variant_parts tmapTwo baseCfg.render "ada@example.com"
    "noreply@hakaru.org" "Hello" "welcome" [] [".txt", ".HTML"] msgTwo rfl rfl

/-- Claim C6: the charset attached to a composed part is the first
charset of the candidate list US-ASCII, ISO-8859-1, UTF-8 in which the
rendered content encodes without a character-set error. -/
theorem charset_first_success (ext : String) (content : PyStr) (cs : String)
    (p : MimePart)
    (hfirst : charsetCandidates.find? (fun c => pyEncodes c content) = some cs)
    (hok : mkPart ext content = .ok p) :
    p.charset = cs := by
  rw [mkPart_charset hok]
  exact chooseCharset_eq_find hfirst

/-- Witness for C6: content with the single code point 0xE9 fails
US-ASCII, encodes in ISO-8859-1, and the composed part carries
ISO-8859-1. -/
theorem charset_first_success_witness :
    MimePart.charset
      { subtype := "plain", charset := "ISO-8859-1", payload := .text [0xE9] } =
      "ISO-8859-1" :=
  charset_first_success ".txt" [0xE9] "ISO-8859-1"
    { subtype := "plain", charset := "ISO-8859-1", payload := .text [0xE9] }
    (by decide) rfl

/-- Claim C8: the To header of a composed message is the bare recipient
address (formataddr with an empty display name), whatever sender
display name was configured for the From header. -/
theorem to_header_bare_address (tmap : List (String × List String))
    (render : String → PyDict → PyStr)
    (name addr mailTo subject tkey : String) (data : PyDict) (m : MailMessage)
    (hok : create_message tmap render mailTo (pyMailFrom name addr) subject
        tkey data = .ok m) :
    m.toAddr = mailTo := by
  rw [create_message_to hok, formataddr_empty]

/-- Witness for C8: with sender display name Alice Smith the To header
is still the bare recipient address. -/
theorem to_header_bare_address_witness :
    msgNamed.toAddr = "bob@example.com" :=
  to_header_bare_address baseCfg.templates baseCfg.render "Alice Smith"
    "alice@example.com" "bob@example.com" "Hello" "welcome" [] msgNamed rfl

/-- Claim C9: the charset loop is total on surrogate-free strings (the
only strings rendering can produce here, since templates and CSV text
come from strict UTF-8 decoding): UTF-8 always succeeds for them, the
chosen charset is always one of the three candidates, the subsequent
encode with the chosen charset succeeds, and message composition never
fails with an encoding error. -/
theorem charset_negotiation_total (tmap : List (String × List String))
    (render : String → PyDict → PyStr) (mailTo mailFrom subject tkey : String)
    (data : PyDict) (variants : List String)
    (htm : templatesGet tmap tkey = some variants)
    (hns : ∀ ext ∈ variants, noSurr (render (tkey ++ ext) data) = true) :
    (∀ s : PyStr, noSurr s = true →
      pyEncodes "UTF-8" s = true ∧ chooseCharset s ∈ charsetCandidates ∧
        (pyEncode (chooseCharset s) s).isSome = true) ∧
    ∃ m, create_message tmap render mailTo mailFrom subject tkey data = .ok m ∧
      ∀ p ∈ m.altParts, p.charset ∈ charsetCandidates := by
  constructor
  · intro s hs
    exact ⟨noSurr_utf8 hs, chooseCharset_mem s,
      pyEncode_isSome (chooseCharset_encodes (noSurr_utf8 hs))⟩
  · obtain ⟨m, hm, _, hcs⟩ := create_message_total htm hns
    exact ⟨m, hm, hcs⟩

/-- Witness for C9 at the concrete base configuration. -/
theorem charset_negotiation_total_witness :
    (∀ s : PyStr, noSurr s = true →
      pyEncodes "UTF-8" s = true ∧ chooseCharset s ∈ charsetCandidates ∧
        (pyEncode (chooseCharset s) s).isSome = true) ∧
    ∃ m, create_message baseCfg.templates baseCfg.render "ada@example.com"
        "noreply@hakaru.org" "Hello" "welcome" [] = .ok m ∧
      ∀ p ∈ m.altParts, p.charset ∈ charsetCandidates :=
  charset_negotiation_total baseCfg.templates baseCfg.render "ada@example.com"
    "noreply@hakaru.org" "Hello" "welcome" [] [".txt"] rfl fun _ _ => rfl

theorem processRow_dry {cfg : RunConfig} {headers row : List String}
    {A : String} {variants : List String}
    (hdry : cfg.dryRun = some A) (hA : A ≠ "")
    (htm : templatesGet cfg.templates cfg.templateKey = some variants)
    (hns : ∀ name d, noSurr (cfg.render name d) = true)
    (hok : rowAddrOk cfg headers row = true) :
    ∃ m, processRow cfg headers row = .sent A m ∧ m.toAddr = A := by
  unfold rowAddrOk at hok
  cases hlk : dictLookup (pyDict (headers.zip row)) cfg.emailColumn with
  | none => rw [hlk] at hok; simp at hok
  | some addr =>
    rw [hlk] at hok
    dsimp only at hok
    cases hv : cfg.validate addr with
    | none => rw [hv] at hok; simp at hok
    | some normalized =>
      obtain ⟨m, hm, hto, _⟩ :=
        @create_message_total cfg.templates cfg.render A
          (pyMailFrom cfg.mailFromName cfg.mailFromAddr) cfg.subject
          cfg.templateKey (pyDict (headers.zip row)) variants htm
          fun ext _ => hns _ _
      refine ⟨m, ?_, by rw [hto, formataddr_empty]⟩
      simp only [processRow, hlk, hv, hdry]
      rw [if_neg hA]
      simp only [hm]

/-- Claim C7: with the dry-run option set to a non-empty address A,
every message of the run is sent to A (the recipient list of the sent
events is A repeated once per valid data row, so no original row
address is ever used), and the To header of every sent message also
carries A. -/
theorem dry_run_redirects_all_sends (cfg : RunConfig) (headers : List String)
    (rows : List (List String)) (A : String) (variants : List String)
    (hdry : cfg.dryRun = some A) (hA : A ≠ "")
    (htm : templatesGet cfg.templates cfg.templateKey = some variants)
    (hns : ∀ name d, noSurr (cfg.render name d) = true)
    (hrows : rows.all (rowAddrOk cfg headers) = true) :
    sentTos (runEvents cfg headers rows) = List.replicate rows.length A ∧
    ∀ m ∈ sentMsgs (runEvents cfg headers rows), m.toAddr = A := by
  revert hrows
  induction rows with
  | nil =>
    intro _
    exact ⟨rfl, fun m hm => absurd hm (by simp [runEvents, sentMsgs])⟩
  | cons r rs ih =>
    intro hall
    rw [List.all_cons, Bool.and_eq_true] at hall
    obtain ⟨m, hm, hto⟩ := processRow_dry hdry hA htm hns hall.1
    obtain ⟨ihTos, ihMsgs⟩ := ih hall.2
    have hrun : runEvents cfg headers (r :: rs) =
        .sent A m :: runEvents cfg headers rs := by
      simp only [runEvents, hm]
    constructor
    · rw [hrun, sentTos_cons_sent, List.length_cons, List.replicate_succ, ihTos]
    · rw [hrun, sentMsgs_cons_sent]
      intro m2 hm2
      rcases List.mem_cons.mp hm2 with h | h
      · rw [h]; exact hto
      · exact ihMsgs m2 h

/-- Witness for C7: dry run to test@example.com over the two valid
test rows sends exactly twice, both times to test@example.com, and
both To headers carry test@example.com. -/
theorem dry_run_redirects_all_sends_witness :
    sentTos (runEvents cfgDry testHeaders testRows) =
      List.replicate 2 "test@example.com" ∧
    ∀ m ∈ sentMsgs (runEvents cfgDry testHeaders testRows),
      m.toAddr = "test@example.com" :=
  dry_run_redirects_all_sends cfgDry testHeaders testRows "test@example.com"
    [".txt"] rfl (by decide) rfl (fun _ _ => rfl) (by decide)
